import Mathlib

/-
  Verification development for the sherry-sync demon repository.

  Shallow embedding of the debounced event multiplexing and per-source
  dispatch engine (src/app.rs) and of the JSON / stream file helpers
  (src/files.rs, src/helpers.rs).

  Modelling conventions:
  * Filesystem paths are lists of components (`FsPath`); Rust's
    `Path::starts_with` is component-wise list prefix (`List.isPrefixOf`).
  * The external disk is modelled by a predicate `diskExists : FsPath → Bool`
    (the result of `PathBuf::exists` during one batch).
  * `EventProcessingDebounce` lives in module `event/event_processing`,
    which is not part of the provided sources; it is modelled as an opaque
    worker identified by a fresh numeric token per constructor invocation,
    with its `is_running` answer at reap time given by an oracle
    `running : Nat → Bool` (per spec section 6, the worker factory
    `create(runtime, app, source_id)` returns a Worker, and
    `is_running() -> bool` is an opaque status query).
  * The `HashMap<String, EventProcessingDebounce>` dispatch table is an
    association list with unique keys; `sources : HashMap` membership is a
    key list.
-/

namespace Demon

/-- A filesystem path as its list of components. -/
abbrev FsPath := List String

/-- Watcher mapping from the configuration (`SherryConfigWatcherJSON`):
a local root, the owning source id, and the initial-sync completion flag. -/
structure SherryConfigWatcherJSON where
  local_path : FsPath
  source : String
  complete : Bool
deriving DecidableEq, Repr

/-- Config snapshot (`SherryConfigJSON`): ordered watcher sequence plus the
source registry, modelled by its set of keys (the engine only queries
`config.sources.get(id).is_some()`). -/
structure SherryConfigJSON where
  watchers : List SherryConfigWatcherJSON
  sources : List String
deriving DecidableEq, Repr

/-- `get_source_by_path` from src/app.rs: iterate the watchers in order and
return the first whose `local_path` is a path-prefix of `path`
(`find_map` over `path.starts_with(&w.local_path)`). -/
def get_source_by_path (config : SherryConfigJSON) (path : FsPath) :
    Option SherryConfigWatcherJSON :=
  config.watchers.find? (fun w => w.local_path.isPrefixOf path)

/-- A raw debounced filesystem event: the affected paths and the event kind
(the engine never inspects `kind`; it is carried through opaquely). -/
structure RawEvent where
  paths : List FsPath
  kind : String
deriving DecidableEq, Repr

/-- `BasedDebounceEvent` from the event-processing boundary: the raw event
together with the resolved watcher's root. -/
structure BasedDebounceEvent where
  event : RawEvent
  base : FsPath
deriving DecidableEq, Repr

/-- Outcome of routing one raw event against one snapshot: skip silently,
raise the revalidation flag, or dispatch to the worker of a source id with
the watcher's root as base. -/
inductive RouteOutcome where
  | ignore : RouteOutcome
  | anomaly : RouteOutcome
  | dispatch : String → FsPath → RouteOutcome
deriving DecidableEq, Repr

/-- The per-event decision sequence of the loop body in `App::listen`
(src/app.rs lines 62-87): take `paths.first()` (absent ⇒ skip), resolve the
watcher by `get_source_by_path` (none ⇒ skip), skip if `!watcher.complete`,
flag revalidation if the watcher root no longer exists on disk or if the
source id is absent from `config.sources`, otherwise dispatch. -/
def routeEvent (diskExists : FsPath → Bool) (config : SherryConfigJSON)
    (result : RawEvent) : RouteOutcome :=
  match result.paths.head? with
  | none => RouteOutcome.ignore
  | some source_path =>
    match get_source_by_path config source_path with
    | none => RouteOutcome.ignore
    | some watcher =>
      if !watcher.complete then RouteOutcome.ignore
      else if !diskExists watcher.local_path then RouteOutcome.anomaly
      else if !(config.sources.contains watcher.source) then RouteOutcome.anomaly
      else RouteOutcome.dispatch watcher.source watcher.local_path

/-- Persistent dispatch-engine state: the table
`event_processing_debounce_map` (source id → worker token) and the supply of
fresh worker tokens. `nextId` counts `EventProcessingDebounce::new`
invocations: each constructor call consumes one fresh token. -/
structure DispatchState where
  table : List (String × Nat)
  nextId : Nat
deriving DecidableEq, Repr

/-- `HashMap::get` on the modelled dispatch table. -/
def tableGet (t : List (String × Nat)) (k : String) : Option Nat :=
  (t.find? (fun p => p.1 == k)).map (fun p => p.2)

/-- `event_processing_debounce_map.entry(source_id).or_insert(EventProcessingDebounce::new(...))`
from src/app.rs lines 89-92. Rust evaluates `or_insert`'s argument before
the occupancy check, so a fresh worker is constructed on every call
(`nextId` advances unconditionally); it is installed only when the key is
vacant, and dropped otherwise. Returns the worker the entry refers to. -/
def dispatchTo (ds : DispatchState) (k : String) : Nat × DispatchState :=
  let fresh := ds.nextId
  match tableGet ds.table k with
  | some w => (w, { table := ds.table, nextId := ds.nextId + 1 })
  | none => (fresh, { table := ds.table ++ [(k, fresh)], nextId := ds.nextId + 1 })

/-- Batch-scoped accumulator: dispatch state, the log of `debounce.send`
calls made during this batch (source id, worker token, routed event), and
the `should_revalidate` flag. -/
structure BatchAcc where
  ds : DispatchState
  sent : List (String × Nat × BasedDebounceEvent)
  should_revalidate : Bool
deriving DecidableEq, Repr

/-- One iteration of the `for result in results` loop in `App::listen`:
route the event, then either skip, set the revalidation flag, or hand the
event to the worker obtained from the table entry. -/
def processEvent (diskExists : FsPath → Bool) (config : SherryConfigJSON)
    (acc : BatchAcc) (result : RawEvent) : BatchAcc :=
  match routeEvent diskExists config result with
  | RouteOutcome.ignore => acc
  | RouteOutcome.anomaly =>
    { ds := acc.ds, sent := acc.sent, should_revalidate := true }
  | RouteOutcome.dispatch source_id base =>
    let wds := dispatchTo acc.ds source_id
    { ds := wds.2
      sent := acc.sent ++ [(source_id, wds.1, { event := result, base := base })]
      should_revalidate := acc.should_revalidate }

/-- The whole event loop of one batch, folded over the delivered events in
order. -/
def processBatch (diskExists : FsPath → Bool) (config : SherryConfigJSON)
    (results : List RawEvent) (acc : BatchAcc) : BatchAcc :=
  results.foldl (processEvent diskExists config) acc

/-- The reap loop of `App::listen` (src/app.rs lines 98-102): query
`is_running` for every entry and remove those that report false. -/
def reap (running : Nat → Bool) (t : List (String × Nat)) :
    List (String × Nat) :=
  t.filter (fun p => running p.2)

/-- Engine state that survives across debouncer callbacks: the dispatch
state plus a count of `revalidate()` invocations on the config. -/
structure EngineState where
  dispatch : DispatchState
  revalidateCount : Nat
deriving DecidableEq, Repr

/-- The `DebounceEventResult` delivered to the callback: a batch of events
or the notification primitive's errors (modelled as opaque strings). -/
abbrev DebounceEventResult := Except (List String) (List RawEvent)

/-- One debouncer callback cycle of `App::listen` (src/app.rs lines 55-108):
an `Err` result skips the cycle entirely (`if let Ok(results)`); an `Ok`
batch is processed event by event against one config snapshot with the
flag reset, then the table is reaped, then `revalidate()` is called once
when the flag was raised. -/
def runCycle {E : Type} (diskExists : FsPath → Bool) (running : Nat → Bool)
    (config : SherryConfigJSON) (results : Except E (List RawEvent))
    (s : EngineState) : EngineState :=
  match results with
  | Except.error _ => s
  | Except.ok events =>
    let acc := processBatch diskExists config events
      { ds := s.dispatch, sent := [], should_revalidate := false }
    { dispatch := { table := reap running acc.ds.table, nextId := acc.ds.nextId }
      revalidateCount :=
        s.revalidateCount + (if acc.should_revalidate then 1 else 0) }

/-! File helpers from src/files.rs and src/helpers.rs. The filesystem is an
in-memory association list from path to contents; serde encode/decode for a
target type `T` is abstracted by a decoder `parse : String → Option T` and
an encoder `ser : T → String` (a parse failure models both an unreadable
file and corrupt or mistyped JSON); the fallibility of the OS-level disk
write itself is outside this model. -/

/-- The filesystem as path-to-contents pairs. -/
abbrev Fs := List (String × String)

/-- Contents of a file, when it exists. -/
def fsRead (fs : Fs) (p : String) : Option String :=
  (fs.find? (fun e => e.1 == p)).map (fun e => e.2)

/-- `fs::write`: create or truncate-and-overwrite the file at `p`. -/
def fsWrite (fs : Fs) (p : String) (c : String) : Fs :=
  (p, c) :: fs.filter (fun e => e.1 != p)

/-- `get_file_string`: open the file and read it to a string; a missing
file is the open error. -/
def get_file_string (fs : Fs) (p : String) : Except String String :=
  match fsRead fs p with
  | none => Except.error "Error File Open"
  | some s => Except.ok s

/-- `read_json_file`: read the file to a string and JSON-decode it into the
target type. -/
def read_json_file {T : Type} (parse : String → Option T) (fs : Fs)
    (p : String) : Except String T :=
  match get_file_string fs p with
  | Except.error e => Except.error e
  | Except.ok s =>
    match parse s with
    | none => Except.error "Error JSON Parse"
    | some v => Except.ok v

/-- `write_json_file`: serialize the value and write it to the file,
returning the result together with the updated filesystem. -/
def write_json_file {T : Type} (ser : T → String) (fs : Fs) (p : String)
    (v : T) : Except String Unit × Fs :=
  (Except.ok (), fsWrite fs p (ser v))

/-- `initialize_json_file` (identical logic in src/files.rs lines 40-51,
async, and src/helpers.rs lines 42-53, sync): return the decoded existing
content; on any read or decode error, write the serialized default and
return the default. -/
def initialize_json_file {T : Type} (parse : String → Option T)
    (ser : T → String) (fs : Fs) (p : String) (default : T) :
    Except String T × Fs :=
  match read_json_file parse fs p with
  | Except.ok v => (Except.ok v, fs)
  | Except.error _ =>
    match write_json_file ser fs p default with
    | (Except.error e, fs2) => (Except.error e, fs2)
    | (Except.ok _, fs2) => (Except.ok default, fs2)

/-- A byte-stream chunk payload. -/
abbrev Bytes := List Nat

/-- The chunk loop of `write_files_from_stream`: for each stream item, an
error chunk returns `Err` immediately (files keep what was written so
far); an ok chunk is appended to every open file. -/
def writeChunks : List (Except String Bytes) → List (String × Bytes) →
    Except String Unit × List (String × Bytes)
  | [], files => (Except.ok (), files)
  | Except.error e :: _, files =>
    (Except.error ("Invalid chunk: " ++ e), files)
  | Except.ok chunk :: rest, files =>
    writeChunks rest (files.map (fun f => (f.1, f.2 ++ chunk)))

/-- `write_files_from_stream` (src/files.rs lines 90-101): create a file for
every target path, keeping only the successful creations
(`filter_map(|v| v.ok())`, modelled by the per-path oracle `createOk`),
then stream every chunk into each surviving file. Returns the
`Result<(), String>` and the final contents of the surviving files. -/
def write_files_from_stream (createOk : String → Bool) (paths : List String)
    (stream : List (Except String Bytes)) :
    Except String Unit × List (String × Bytes) :=
  writeChunks stream ((paths.filter createOk).map (fun p => (p, ([] : Bytes))))

/-- Concatenation of the payloads of the successful chunks of a stream, in
order. -/
def chunksJoin : List (Except String Bytes) → Bytes
  | [] => []
  | Except.ok c :: rest => c ++ chunksJoin rest
  | Except.error _ :: rest => chunksJoin rest

/-! Theorems. -/

/-- A `find?` hit is the first element of the list satisfying the
predicate: everything strictly before it fails the predicate. -/
theorem find_eq_some_first {A : Type} (q : A → Bool) (l : List A) (a : A) :
    l.find? q = some a ↔
      q a = true ∧ ∃ l1 l2, l = l1 ++ a :: l2 ∧ ∀ x ∈ l1, q x = false := by
  induction l with
  | nil => simp
  | cons x xs ih =>
    cases hx : q x with
    | true =>
      simp only [List.find?_cons, hx, Option.some.injEq]
      constructor
      · intro h
        subst h
        exact ⟨hx, [], xs, rfl, by simp⟩
      · rintro ⟨ha, l1, l2, heq, hall⟩
        cases l1 with
        | nil =>
          simp only [List.nil_append, List.cons.injEq] at heq
          exact heq.1
        | cons y ys =>
          simp only [List.cons_append, List.cons.injEq] at heq
          have hqy := hall y (List.mem_cons_self y ys)
          rw [← heq.1, hx] at hqy
          exact absurd hqy (by simp)
    | false =>
      simp only [List.find?_cons, hx]
      rw [ih]
      constructor
      · rintro ⟨ha, l1, l2, heq, hall⟩
        refine ⟨ha, x :: l1, l2, by rw [heq, List.cons_append], ?_⟩
        intro z hz
        rcases List.mem_cons.mp hz with hz | hz
        · rw [hz]; exact hx
        · exact hall z hz
      · rintro ⟨ha, l1, l2, heq, hall⟩
        cases l1 with
        | nil =>
          simp only [List.nil_append, List.cons.injEq] at heq
          rw [heq.1, ha] at hx
          exact absurd hx (by simp)
        | cons y ys =>
          simp only [List.cons_append, List.cons.injEq] at heq
          refine ⟨ha, ys, l2, heq.2, ?_⟩
          intro z hz
          exact hall z (List.mem_cons_of_mem y hz)

/-- Snapshot with nested roots where the broader root comes first. -/
def cfgC1 : SherryConfigJSON :=
  { watchers := [{ local_path := ["a"], source := "A", complete := true },
                 { local_path := ["a", "b"], source := "B", complete := true }]
    sources := ["A", "B"] }

/-- C1 (counterexample): with nested watcher roots /a and /a/b listed in the
order [/a, /a/b], the event path /a/b/c resolves to the watcher for /a even
though the more specific root /a/b also matches — routing is NOT the
most-specific (longest) prefix match and it does depend on sequence order. -/
theorem C1_counterexample :
    get_source_by_path cfgC1 ["a", "b", "c"] =
      some { local_path := ["a"], source := "A", complete := true } ∧
    (List.isPrefixOf ["a", "b"] ["a", "b", "c"]) = true ∧
    ({ local_path := ["a"], source := "A", complete := true } :
      SherryConfigWatcherJSON).local_path ≠ ["a", "b"] := by
  decide

/-- C1 (amended): routing resolves to the FIRST watcher in the snapshot's
watcher sequence whose `local_path` is a component-prefix of the event's
path; with nested roots the most specific mapping wins only when it appears
before the broader one in the sequence. -/
theorem C1_first_prefix_match (config : SherryConfigJSON) (path : FsPath)
    (w : SherryConfigWatcherJSON) :
    get_source_by_path config path = some w ↔
      (List.isPrefixOf w.local_path path) = true ∧
      ∃ l1 l2, config.watchers = l1 ++ w :: l2 ∧
        ∀ v ∈ l1, (List.isPrefixOf v.local_path path) = false :=
  find_eq_some_first _ config.watchers w

/-- Snapshot with a single complete watcher for source S1. -/
def cfgC2 : SherryConfigJSON :=
  { watchers := [{ local_path := ["s"], source := "S1", complete := true }]
    sources := ["S1"] }

/-- First event of the C2 batch. -/
def evC2a : RawEvent := { paths := [["s", "x"]], kind := "modify" }

/-- Second event of the C2 batch, for the same source S1. -/
def evC2b : RawEvent := { paths := [["s", "y"]], kind := "modify" }

/-- C2 (code_bug evaluation): dispatching two events for source S1 within
one batch leaves exactly one table entry for S1 and both sends reuse
worker 0, but `nextId = 2` records that the worker constructor ran twice:
`or_insert(EventProcessingDebounce::new(..))` evaluates its argument
eagerly, so a fresh worker is constructed (and discarded) even though a
live entry for S1 already exists — contradicting "a new worker is created
only when no entry for that source_id is present". -/
theorem C2_or_insert_eager :
    (processBatch (fun _ => true) cfgC2 [evC2a, evC2b]
      { ds := { table := [], nextId := 0 }, sent := [], should_revalidate := false }).ds.table
      = [("S1", 0)] ∧
    (processBatch (fun _ => true) cfgC2 [evC2a, evC2b]
      { ds := { table := [], nextId := 0 }, sent := [], should_revalidate := false }).ds.nextId
      = 2 ∧
    (processBatch (fun _ => true) cfgC2 [evC2a, evC2b]
      { ds := { table := [], nextId := 0 }, sent := [], should_revalidate := false }).sent.map
      (fun e => e.2.1) = [0, 0] := by
  decide

/-- C3: during one successful cycle, a dispatch-table entry survives into
the post-cycle engine state if and only if it is in the table after all of
the batch's events were dispatched and its worker's `is_running` query
reported true at reap time; entries reporting true are always retained. -/
theorem C3_reap_iff (diskExists : FsPath → Bool) (running : Nat → Bool)
    (config : SherryConfigJSON) (events : List RawEvent) (s : EngineState)
    (k : String) (w : Nat) :
    (k, w) ∈ (runCycle diskExists running config
        (Except.ok events : DebounceEventResult) s).dispatch.table ↔
      ((k, w) ∈ (processBatch diskExists config events
          { ds := s.dispatch, sent := [], should_revalidate := false }).ds.table ∧
        running w = true) := by
  simp [runCycle, reap, List.mem_filter]

/-- Predicate of the C4 hypothesis: the event's first path resolves to a
watcher whose `complete` flag is false. -/
def matchedIncomplete (config : SherryConfigJSON) (ev : RawEvent) : Bool :=
  match ev.paths.head? with
  | none => false
  | some p =>
    match get_source_by_path config p with
    | none => false
    | some w => !w.complete

/-- Routing an event whose matched watcher is incomplete yields `ignore`,
before the disk-existence and registry checks are even reached. -/
theorem routeEvent_of_incomplete (diskExists : FsPath → Bool)
    (config : SherryConfigJSON) (ev : RawEvent)
    (h : matchedIncomplete config ev = true) :
    routeEvent diskExists config ev = RouteOutcome.ignore := by
  unfold matchedIncomplete at h
  cases hp : ev.paths.head? with
  | none => simp [routeEvent, hp]
  | some p =>
    simp only [hp] at h
    cases hw : get_source_by_path config p with
    | none =>
      simp only [hw] at h
      exact absurd h (by simp)
    | some w =>
      simp only [hw] at h
      simp [routeEvent, hp, hw, h]

/-- C4: a batch in which every event resolves to a watcher with
`complete = false` leaves the batch state completely unchanged — no
dispatch, no send, no revalidation flag — for every disk state and every
registry content. -/
theorem C4_incomplete_suppressed (diskExists : FsPath → Bool)
    (config : SherryConfigJSON) (events : List RawEvent) (acc : BatchAcc)
    (h : ∀ ev ∈ events, matchedIncomplete config ev = true) :
    processBatch diskExists config events acc = acc := by
  revert h
  induction events generalizing acc with
  | nil => intro _; rfl
  | cons ev rest ih =>
    intro h
    have h1 : routeEvent diskExists config ev = RouteOutcome.ignore :=
      routeEvent_of_incomplete diskExists config ev
        (h ev (List.mem_cons_self ev rest))
    have hstep : processEvent diskExists config acc ev = acc := by
      unfold processEvent
      rw [h1]
    calc processBatch diskExists config (ev :: rest) acc
        = processBatch diskExists config rest
            (processEvent diskExists config acc ev) := rfl
      _ = processBatch diskExists config rest acc := by rw [hstep]
      _ = acc := ih acc (fun e he => h e (List.mem_cons_of_mem ev he))

/-- Snapshot with one incomplete watcher; its registry is even empty. -/
def cfgC4 : SherryConfigJSON :=
  { watchers := [{ local_path := ["d"], source := "S", complete := false }]
    sources := [] }

/-- Event under the incomplete watcher of cfgC4. -/
def evC4 : RawEvent := { paths := [["d", "f"]], kind := "create" }

/-- C4 witness: a concrete batch under an incomplete watcher, with the
watcher root missing from disk and the source absent from the registry,
produces zero dispatches and zero anomalies. -/
theorem C4_witness :
    processBatch (fun _ => false) cfgC4 [evC4]
      { ds := { table := [], nextId := 0 }, sent := [], should_revalidate := false } =
      { ds := { table := [], nextId := 0 }, sent := [], should_revalidate := false } :=
  C4_incomplete_suppressed (fun _ => false) cfgC4 [evC4]
    { ds := { table := [], nextId := 0 }, sent := [], should_revalidate := false }
    (by decide)

/-- Whether routing an event against a snapshot raises the revalidation
flag. -/
def isAnomaly (diskExists : FsPath → Bool) (config : SherryConfigJSON)
    (ev : RawEvent) : Bool :=
  match routeEvent diskExists config ev with
  | RouteOutcome.anomaly => true
  | _ => false

/-- The revalidation flag after one loop iteration: the previous flag, or
the anomaly status of the event just processed. -/
theorem processEvent_flag (diskExists : FsPath → Bool)
    (config : SherryConfigJSON) (acc : BatchAcc) (ev : RawEvent) :
    (processEvent diskExists config acc ev).should_revalidate =
      (acc.should_revalidate || isAnomaly diskExists config ev) := by
  unfold processEvent isAnomaly
  cases routeEvent diskExists config ev <;> simp

/-- The revalidation flag after a batch: the initial flag, or the anomaly
status of any of the batch's events. -/
theorem processBatch_flag (diskExists : FsPath → Bool)
    (config : SherryConfigJSON) (events : List RawEvent) (acc : BatchAcc) :
    (processBatch diskExists config events acc).should_revalidate =
      (acc.should_revalidate || events.any (isAnomaly diskExists config)) := by
  induction events generalizing acc with
  | nil => simp [processBatch]
  | cons ev rest ih =>
    have hc : processBatch diskExists config (ev :: rest) acc =
        processBatch diskExists config rest
          (processEvent diskExists config acc ev) := rfl
    rw [hc, ih, processEvent_flag]
    simp [Bool.or_assoc]

/-- An anomaly outcome's entire effect on the batch state is setting the
revalidation flag: the dispatch table, the fresh-token supply, and the send
log are untouched. -/
theorem processEvent_anomaly_state (diskExists : FsPath → Bool)
    (config : SherryConfigJSON) (acc : BatchAcc) (ev : RawEvent)
    (h : routeEvent diskExists config ev = RouteOutcome.anomaly) :
    processEvent diskExists config acc ev =
      { ds := acc.ds, sent := acc.sent, should_revalidate := true } := by
  unfold processEvent
  rw [h]

/-- A batch made only of anomaly events never touches the dispatch state or
the send log. -/
theorem processBatch_all_anomaly (diskExists : FsPath → Bool)
    (config : SherryConfigJSON) (events : List RawEvent) (acc : BatchAcc)
    (h : ∀ ev ∈ events, routeEvent diskExists config ev = RouteOutcome.anomaly) :
    (processBatch diskExists config events acc).ds = acc.ds ∧
    (processBatch diskExists config events acc).sent = acc.sent := by
  revert h
  induction events generalizing acc with
  | nil => intro _; exact ⟨rfl, rfl⟩
  | cons ev rest ih =>
    intro h
    have hc : processBatch diskExists config (ev :: rest) acc =
        processBatch diskExists config rest
          (processEvent diskExists config acc ev) := rfl
    rw [hc, processEvent_anomaly_state diskExists config acc ev
      (h ev (List.mem_cons_self ev rest))]
    exact ih { ds := acc.ds, sent := acc.sent, should_revalidate := true }
      (fun e he => h e (List.mem_cons_of_mem ev he))

/-- C5: over one successful cycle, `revalidate` is invoked exactly once
when some event of the batch routed to an anomaly and not at all otherwise;
and a batch consisting only of anomaly events never creates a worker (the
dispatch state is untouched) and sends nothing. -/
theorem C5_revalidate_once (diskExists : FsPath → Bool) (running : Nat → Bool)
    (config : SherryConfigJSON) (events : List RawEvent) (s : EngineState) :
    ((runCycle diskExists running config
        (Except.ok events : DebounceEventResult) s).revalidateCount =
      if events.any (isAnomaly diskExists config) then s.revalidateCount + 1
      else s.revalidateCount) ∧
    ((∀ ev ∈ events, routeEvent diskExists config ev = RouteOutcome.anomaly) →
      (processBatch diskExists config events
        { ds := s.dispatch, sent := [], should_revalidate := false }).ds = s.dispatch ∧
      (processBatch diskExists config events
        { ds := s.dispatch, sent := [], should_revalidate := false }).sent = []) := by
  constructor
  · have hflag := processBatch_flag diskExists config events
      { ds := s.dispatch, sent := [], should_revalidate := false }
    simp only [runCycle]
    rw [hflag]
    simp only [Bool.false_or]
    cases events.any (isAnomaly diskExists config) <;> simp
  · intro h
    exact processBatch_all_anomaly diskExists config events
      { ds := s.dispatch, sent := [], should_revalidate := false } h

/-- Snapshot for the C5 witness: one complete watcher whose root will be
missing from disk. -/
def cfgC5 : SherryConfigJSON :=
  { watchers := [{ local_path := ["w"], source := "S", complete := true }]
    sources := ["S"] }

/-- Event under the vanished root of cfgC5. -/
def evC5 : RawEvent := { paths := [["w", "f"]], kind := "modify" }

/-- C5 witness: a concrete anomaly-only batch (watcher root missing from
disk) triggers exactly one revalidation and creates no worker. -/
theorem C5_witness :
    (runCycle (fun _ => false) (fun _ => true) cfgC5
      (Except.ok [evC5] : DebounceEventResult)
      { dispatch := { table := [], nextId := 0 }, revalidateCount := 0 }).revalidateCount = 1 ∧
    (processBatch (fun _ => false) cfgC5 [evC5]
      { ds := { table := [], nextId := 0 }, sent := [], should_revalidate := false }).ds =
      { table := [], nextId := 0 } := by
  have h := C5_revalidate_once (fun _ => false) (fun _ => true) cfgC5 [evC5]
    { dispatch := { table := [], nextId := 0 }, revalidateCount := 0 }
  refine ⟨?_, ?_⟩
  · rw [h.1]
    decide
  · exact (h.2 (by decide)).1

/-- C6: an anomaly event's only effect is to set the batch's revalidation
flag — it is not dispatched and its send log entry does not exist — and the
batch continues: processing pre ++ anomaly :: post equals processing post
from the state reached after pre, with the flag forced to true. -/
theorem C6_anomaly_continues (diskExists : FsPath → Bool)
    (config : SherryConfigJSON) (pre post : List RawEvent) (ev : RawEvent)
    (acc : BatchAcc)
    (h : routeEvent diskExists config ev = RouteOutcome.anomaly) :
    processEvent diskExists config acc ev =
      { ds := acc.ds, sent := acc.sent, should_revalidate := true } ∧
    processBatch diskExists config (pre ++ ev :: post) acc =
      processBatch diskExists config post
        { ds := (processBatch diskExists config pre acc).ds
          sent := (processBatch diskExists config pre acc).sent
          should_revalidate := true } := by
  constructor
  · exact processEvent_anomaly_state diskExists config acc ev h
  · simp only [processBatch]
    rw [List.foldl_append, List.foldl_cons,
      processEvent_anomaly_state diskExists config
        (List.foldl (processEvent diskExists config) acc pre) ev h]

/-- Snapshot for the C6 witness: two complete watchers, one of whose roots
will be missing from disk. -/
def cfgC6 : SherryConfigJSON :=
  { watchers := [{ local_path := ["g"], source := "G", complete := true },
                 { local_path := ["m"], source := "M", complete := true }]
    sources := ["G", "M"] }

/-- Disk state for the C6 witness: only the root of watcher G exists. -/
def dC6 : FsPath → Bool := fun p => p == ["g"]

/-- Anomaly event of the C6 witness (root /m is gone). -/
def evAnomC6 : RawEvent := { paths := [["m", "x"]], kind := "modify" }

/-- Dispatchable event of the C6 witness. -/
def evDispC6 : RawEvent := { paths := [["g", "y"]], kind := "modify" }

/-- C6 witness: in a concrete batch [anomaly, dispatchable], the anomaly
only forces the flag and the later event is still dispatched (one send). -/
theorem C6_witness :
    processBatch dC6 cfgC6 ([] ++ evAnomC6 :: [evDispC6])
      { ds := { table := [], nextId := 0 }, sent := [], should_revalidate := false } =
      processBatch dC6 cfgC6 [evDispC6]
        { ds := { table := [], nextId := 0 }, sent := [], should_revalidate := true } ∧
    (processBatch dC6 cfgC6 ([] ++ evAnomC6 :: [evDispC6])
      { ds := { table := [], nextId := 0 }, sent := [], should_revalidate := false }).sent.length
      = 1 := by
  have h := C6_anomaly_continues dC6 cfgC6 [] [evDispC6] evAnomC6
    { ds := { table := [], nextId := 0 }, sent := [], should_revalidate := false }
    (by decide)
  refine ⟨h.2, ?_⟩
  rw [h.2]
  decide

/-- C7: when the raw change source delivers an error result for a cycle,
the cycle is a no-op — the engine state (dispatch table, fresh-token
supply, revalidation count) is exactly unchanged, for any error type and
value. -/
theorem C7_error_cycle_noop {E : Type} (diskExists : FsPath → Bool)
    (running : Nat → Bool) (config : SherryConfigJSON) (e : E)
    (s : EngineState) :
    runCycle diskExists running config (Except.error e) s = s := rfl

/-- C8: the routing decision depends only on the first element of the
event's paths sequence, and an event with an empty paths sequence is
silently skipped — no dispatch, no anomaly, no flag, for every snapshot
and disk state. -/
theorem C8_first_path_only (diskExists : FsPath → Bool)
    (config : SherryConfigJSON) (ev1 ev2 : RawEvent) (acc : BatchAcc) :
    (ev1.paths.head? = ev2.paths.head? →
      routeEvent diskExists config ev1 = routeEvent diskExists config ev2) ∧
    (ev1.paths = [] →
      routeEvent diskExists config ev1 = RouteOutcome.ignore ∧
      processEvent diskExists config acc ev1 = acc) := by
  constructor
  · intro h
    unfold routeEvent
    rw [h]
  · intro h
    have h0 : ev1.paths.head? = none := by rw [h]; rfl
    have hr : routeEvent diskExists config ev1 = RouteOutcome.ignore := by
      unfold routeEvent
      rw [h0]
    refine ⟨hr, ?_⟩
    unfold processEvent
    rw [hr]

/-- A malformed event with no paths at all. -/
def evC8 : RawEvent := { paths := [], kind := "any" }

/-- C8 witness: a concrete pathless event leaves a concrete batch state
untouched. -/
theorem C8_witness :
    processEvent (fun _ => true) { watchers := [], sources := [] }
      { ds := { table := [], nextId := 0 }, sent := [], should_revalidate := false } evC8 =
      { ds := { table := [], nextId := 0 }, sent := [], should_revalidate := false } :=
  ((C8_first_path_only (fun _ => true) { watchers := [], sources := [] } evC8 evC8
    { ds := { table := [], nextId := 0 }, sent := [], should_revalidate := false }).2
    rfl).2

/-- Reading succeeds when the file exists and decodes. -/
theorem read_json_file_ok {T : Type} (parse : String → Option T) (fs : Fs)
    (p : String) (s : String) (v : T) (hs : fsRead fs p = some s)
    (hv : parse s = some v) : read_json_file parse fs p = Except.ok v := by
  unfold read_json_file get_file_string
  rw [hs]
  simp only [hv]

/-- Reading fails when the file is absent or its contents do not decode. -/
theorem read_json_file_err {T : Type} (parse : String → Option T) (fs : Fs)
    (p : String)
    (h : fsRead fs p = none ∨ ∃ s, fsRead fs p = some s ∧ parse s = none) :
    ∃ e, read_json_file parse fs p = Except.error e := by
  rcases h with h | ⟨s, hs, hparse⟩
  · refine ⟨"Error File Open", ?_⟩
    unfold read_json_file get_file_string
    rw [h]
  · refine ⟨"Error JSON Parse", ?_⟩
    unfold read_json_file get_file_string
    rw [hs]
    simp only [hparse]

/-- C9: `initialize_json_file` returns the decoded existing content and
leaves the filesystem untouched whenever the file can be read and decoded;
on any read or decode failure — a missing file as well as an existing file
with corrupt or mistyped contents — it overwrites the file with the
serialized default and returns `Ok default`, reporting no error. -/
theorem C9_initialize_json_file {T : Type} (parse : String → Option T)
    (ser : T → String) (fs : Fs) (p : String) (default : T) :
    (∀ s v, fsRead fs p = some s → parse s = some v →
      initialize_json_file parse ser fs p default = (Except.ok v, fs)) ∧
    ((fsRead fs p = none ∨ ∃ s, fsRead fs p = some s ∧ parse s = none) →
      initialize_json_file parse ser fs p default =
        (Except.ok default, fsWrite fs p (ser default))) := by
  constructor
  · intro s v hs hv
    unfold initialize_json_file
    rw [read_json_file_ok parse fs p s v hs hv]
  · intro h
    obtain ⟨e, he⟩ := read_json_file_err parse fs p h
    unfold initialize_json_file
    rw [he]
    rfl

/-- Decoder of the C9 witness: only the string "1" is valid JSON for it. -/
def parseC9 : String → Option Nat := fun s => if s == "1" then some 1 else none

/-- Encoder of the C9 witness. -/
def serC9 : Nat → String := fun _ => "1"

/-- C9 witness: a file holding corrupt contents is silently replaced by the
serialized default, which is returned as a success. -/
theorem C9_witness :
    initialize_json_file parseC9 serC9 [("cfg", "oops")] "cfg" 5 =
      (Except.ok 5, fsWrite [("cfg", "oops")] "cfg" (serC9 5)) :=
  (C9_initialize_json_file parseC9 serC9 [("cfg", "oops")] "cfg" 5).2
    (Or.inr ⟨"oops", by decide, by decide⟩)

/-- Streaming all-ok chunks into any open file list appends the
concatenated payload to every file and succeeds. -/
theorem writeChunks_all_ok (stream : List (Except String Bytes))
    (h : ∀ c ∈ stream, ∃ b, c = Except.ok b) (files : List (String × Bytes)) :
    writeChunks stream files =
      (Except.ok (), files.map (fun f => (f.1, f.2 ++ chunksJoin stream))) := by
  revert h
  induction stream generalizing files with
  | nil =>
    intro _
    simp [writeChunks, chunksJoin]
  | cons c rest ih =>
    intro h
    obtain ⟨b, rfl⟩ := h c (List.mem_cons_self c rest)
    simp only [writeChunks, chunksJoin]
    rw [ih (files.map (fun f => (f.1, f.2 ++ b)))
      (fun x hx => h x (List.mem_cons_of_mem _ hx))]
    simp [List.map_map, Function.comp, List.append_assoc]

/-- C10: when every chunk of the stream is successful,
`write_files_from_stream` returns `Ok(())` no matter how many target file
creations failed; the surviving files are exactly the paths whose creation
succeeded, in order, each holding the full concatenated stream — so the
caller cannot distinguish full success from partial or total creation
failure. -/
theorem C10_write_files (createOk : String → Bool) (paths : List String)
    (stream : List (Except String Bytes))
    (h : ∀ c ∈ stream, ∃ b, c = Except.ok b) :
    write_files_from_stream createOk paths stream =
      (Except.ok (), (paths.filter createOk).map
        (fun p => (p, chunksJoin stream))) := by
  unfold write_files_from_stream
  rw [writeChunks_all_ok stream h]
  simp [List.map_map, Function.comp]

/-- Creation oracle of the C10 witness: only the first path is created. -/
def cOkC10 : String → Bool := fun p => p == "good"

/-- C10 witness: with one failed creation out of two and two ok chunks, the
call still returns `Ok(())` and only the surviving file got the bytes. -/
theorem C10_witness :
    write_files_from_stream cOkC10 ["good", "bad"]
      [Except.ok [1], Except.ok [2]] =
      (Except.ok (), (["good", "bad"].filter cOkC10).map
        (fun p => (p, chunksJoin [Except.ok [1], Except.ok [2]]))) :=
  C10_write_files cOkC10 ["good", "bad"] [Except.ok [1], Except.ok [2]]
    (by
      intro c hc
      simp only [List.mem_cons, List.not_mem_nil, or_false] at hc
      rcases hc with rfl | rfl
      · exact ⟨[1], rfl⟩
      · exact ⟨[2], rfl⟩)

end Demon
